import Mathlib

/-!
Verification of the text-output parsers of `nactl-windows`.

This file shallowly embeds the parsing core of the repository
(`src/commands/ping.rs`, `src/commands/wifi.rs`, `src/commands/status.rs`,
`src/commands/trace.rs`) into Lean and proves properties about it.

Modelling conventions:
* Rust `&str` values are Lean `String`s; per-character work happens on `List Char`.
* Every `regex::Regex` of the source is embedded as an explicit matching function
  with the regex crate's leftmost-first (Perl-like) match and capture semantics.
  All the quantifiers appearing in the source patterns are deterministic
  (maximal munch is forced by the following literal) except where noted; the
  lazy-`.*?` / optional-group interaction of the ping reply pattern is embedded
  exactly (see `replyTryAt`).
* Patterns that the source runs against the whole captured output
  (`Pinging`, `Sent = ...`, `Minimum = ...`, `Tracing route to ...`) are
  searched line by line in text order; none of those tokens spans a line break
  in the tool output being parsed.
* Rust `u32`/`i32` parsing is modelled with its range checks
  (`rustParseU32`, `rustParseI32`); `u32` subtraction is modelled with
  release-mode wrapping semantics (`u32Sub`).
* `f64` values are modelled as exact rationals (`ℚ`).  Every numeric value the
  verified statements touch is a small integer, where `f64` parsing and
  `min`/`max` are exact; averages are compared only symbolically (the same
  rational expression on both sides), never to concrete constants.
-/

namespace Nactl

/-! ### Rust string primitives -/

abbrev Chars := List Char

def isWsChar (c : Char) : Bool := c.isWhitespace

/-- Maximal run of whitespace dropped (regex `\s*`, maximal munch). -/
def dropWs (l : Chars) : Chars := l.dropWhile isWsChar

/-- Regex `\s+`: at least one whitespace character, maximal munch. -/
def ws1 (l : Chars) : Option Chars :=
  match l with
  | c :: t => if isWsChar c then some (dropWs t) else none
  | [] => none

def takeDigits : Chars → Chars × Chars
  | [] => ([], [])
  | c :: t =>
    if c.isDigit then
      let (d, r) := takeDigits t
      (c :: d, r)
    else ([], c :: t)

def digitsVal (l : Chars) : Nat :=
  l.foldl (fun a c => a * 10 + (c.toNat - 48)) 0

/-- Regex `(\d+)`: a nonempty maximal digit run. -/
def digits1 (l : Chars) : Option (Chars × Chars) :=
  match takeDigits l with
  | ([], _) => none
  | (d, r) => some (d, r)

/-- Match a literal string at the head of the input. -/
def lit (p : String) (l : Chars) : Option Chars :=
  if p.data.isPrefixOf l then some (l.drop p.length) else none

def containsSubAux (n : Chars) : Chars → Bool
  | [] => n.isEmpty
  | c :: t => n.isPrefixOf (c :: t) || containsSubAux n t

/-- Rust `str::contains(needle)` (substring search). -/
def strContains (hay needle : String) : Bool :=
  containsSubAux needle.data hay.data

/-- Rust `str::trim_end`. -/
def rustTrimEnd (s : String) : String :=
  ⟨(s.data.reverse.dropWhile isWsChar).reverse⟩

/-- Rust `str::trim`. -/
def rustTrim (s : String) : String :=
  ⟨((s.data.dropWhile isWsChar).reverse.dropWhile isWsChar).reverse⟩

def splitOnNl : Chars → List Chars
  | [] => [[]]
  | c :: t =>
    let r := splitOnNl t
    if c = '\n' then [] :: r
    else
      match r with
      | [] => [[c]]
      | h :: t2 => (c :: h) :: t2

def stripCr (l : Chars) : Chars :=
  match l.getLast? with
  | some '\r' => l.dropLast
  | _ => l

/-- Rust `str::lines`: split on `\n`, drop a final empty segment, strip one
trailing `\r` from each line. -/
def rustLines (s : String) : List String :=
  let parts := splitOnNl s.data
  let parts := if parts.getLast? = some [] then parts.dropLast else parts
  parts.map (fun l => ⟨stripCr l⟩)

def parseAllDigits (l : Chars) : Option Nat :=
  if !l.isEmpty && l.all (fun c => c.isDigit) then some (digitsVal l) else none

/-- Rust `str::parse::<u32>`: optional `+` sign, digits only, range-checked. -/
def rustParseU32 (s : String) : Option Nat :=
  let l := match s.data with
           | '+' :: t => t
           | l => l
  match parseAllDigits l with
  | some n => if n < 2 ^ 32 then some n else none
  | none => none

/-- Rust `str::parse::<i32>`: optional sign, digits only, range-checked. -/
def rustParseI32 (s : String) : Option Int :=
  match s.data with
  | '-' :: t =>
    match parseAllDigits t with
    | some n => if n ≤ 2 ^ 31 then some (-(n : Int)) else none
    | none => none
  | '+' :: t =>
    match parseAllDigits t with
    | some n => if n < 2 ^ 31 then some (n : Int) else none
    | none => none
  | l =>
    match parseAllDigits l with
    | some n => if n < 2 ^ 31 then some (n : Int) else none
    | none => none

def u32Wrap (n : Nat) : Nat := n % 2 ^ 32

/-- Rust release-mode `u32` subtraction (wrapping).  Debug builds panic when
`b > a`; the subtraction in `parse_ping_output` is reached with `b > a` only on
inputs with more reply lines than the requested count (see `C2`). -/
def u32Sub (a b : Nat) : Nat := (u32Wrap a + 2 ^ 32 - u32Wrap b) % 2 ^ 32

def findFirstSome {α β : Type} (f : α → Option β) : List α → Option β
  | [] => none
  | a :: t =>
    match f a with
    | some b => some b
    | none => findFirstSome f t

/-! ### Ping output parser (`src/commands/ping.rs`)

Regex `Reply from (\d+\.\d+\.\d+\.\d+):.*?(?:time[<=](\d+)ms)?.*?TTL=(\d+)`.

Capture semantics (leftmost-first): at the leftmost viable occurrence of
`Reply from <ipv4>:`, the engine first tries the lazy `.*?` with zero width.
There the optional time group participates only if `time[<=]\d+ms` matches
*immediately* after the colon; otherwise the group matches empty and the second
`.*?` expands to the first `TTL=` followed by a digit.  Consequently the time
group is captured iff the time token directly follows the colon, and the TTL
group is the earliest `TTL=\d+` occurrence in the relevant region. -/

/-- Regex `(\d+\.\d+\.\d+\.\d+)` matched at the head of the input
(maximal munch on each digit run, which is forced). -/
def ipv4At (l : Chars) : Option (String × Chars) :=
  match digits1 l with
  | none => none
  | some (d1, r1) =>
    match r1 with
    | '.' :: r1' =>
      match digits1 r1' with
      | none => none
      | some (d2, r2) =>
        match r2 with
        | '.' :: r2' =>
          match digits1 r2' with
          | none => none
          | some (d3, r3) =>
            match r3 with
            | '.' :: r3' =>
              match digits1 r3' with
              | none => none
              | some (d4, r4) => some (⟨d1 ++ '.' :: d2 ++ '.' :: d3 ++ '.' :: d4⟩, r4)
            | _ => none
        | _ => none
    | _ => none

/-- Leftmost occurrence of `TTL=` followed by at least one digit; yields the
maximal digit run (capture group 3 of the reply pattern). -/
def ttlFind : Chars → Option Chars
  | [] => none
  | l@(_ :: t) =>
    match lit "TTL=" l with
    | some r =>
      match digits1 r with
      | some (d, _) => some d
      | none => ttlFind t
    | none => ttlFind t

/-- `time[<=](\d+)ms` matched at the head of the input. -/
def timeAt (l : Chars) : Option (Nat × Chars) :=
  match lit "time" l with
  | none => none
  | some r =>
    match r with
    | c :: r2 =>
      if c == '<' || c == '=' then
        match digits1 r2 with
        | some (d, r3) =>
          match lit "ms" r3 with
          | some r4 => some (digitsVal d, r4)
          | none => none
        | none => none
      else none
    | [] => none

/-- `caps.get(n).and_then(|m| m.as_str().parse::<u32>().ok())` on a digit-run
capture: succeeds iff the value fits in `u32`. -/
def u32OfDigits (d : Chars) : Option Nat :=
  if digitsVal d < 2 ^ 32 then some (digitsVal d) else none

structure ReplyCaps where
  ip : String
  time : Option Nat
  ttl : Option Nat
deriving DecidableEq

/-- The reply pattern tried at the head of the input (see the semantics note
above). -/
def replyTryAt (l : Chars) : Option ReplyCaps :=
  match lit "Reply from " l with
  | none => none
  | some r =>
    match ipv4At r with
    | none => none
    | some (ip, r2) =>
      match r2 with
      | ':' :: t =>
        match timeAt t with
        | some (v, rest) =>
          match ttlFind rest with
          | some d => some ⟨ip, some v, u32OfDigits d⟩
          | none => (ttlFind t).map (fun d => ⟨ip, none, u32OfDigits d⟩)
        | none => (ttlFind t).map (fun d => ⟨ip, none, u32OfDigits d⟩)
      | _ => none

def replyAux : Chars → Option ReplyCaps
  | [] => none
  | l@(_ :: t) =>
    match replyTryAt l with
    | some c => some c
    | none => replyAux t

/-- Captures of the reply pattern on one line. -/
def replyCaptures (line : String) : Option ReplyCaps := replyAux line.data

/-- Regex `Request timed out|Destination host unreachable`. -/
def timeoutMatch (line : String) : Bool :=
  containsSubAux "Request timed out".data line.data ||
    containsSubAux "Destination host unreachable".data line.data

/-- `\s*=\s*(\d+)`: used by the statistics patterns. -/
def eqWsDigits (l : Chars) : Option (Chars × Chars) :=
  match dropWs l with
  | '=' :: r => digits1 (dropWs r)
  | _ => none

/-- Regex `Sent\s*=\s*(\d+),\s*Received\s*=\s*(\d+),\s*Lost\s*=\s*(\d+)\s*\((\d+)%`
tried at the head of the input. -/
def statsTryAt (l : Chars) : Option (Nat × Nat × Nat × Nat) :=
  match lit "Sent" l with
  | none => none
  | some r =>
    match eqWsDigits r with
    | none => none
    | some (a, r) =>
      match r with
      | ',' :: r =>
        match lit "Received" (dropWs r) with
        | none => none
        | some r =>
          match eqWsDigits r with
          | none => none
          | some (b, r) =>
            match r with
            | ',' :: r =>
              match lit "Lost" (dropWs r) with
              | none => none
              | some r =>
                match eqWsDigits r with
                | none => none
                | some (c, r) =>
                  match dropWs r with
                  | '(' :: r =>
                    match digits1 r with
                    | none => none
                    | some (d, r) =>
                      match r with
                      | '%' :: _ => some (digitsVal a, digitsVal b, digitsVal c, digitsVal d)
                      | _ => none
                  | _ => none
            | _ => none
      | _ => none

def statsAux : Chars → Option (Nat × Nat × Nat × Nat)
  | [] => none
  | l@(_ :: t) =>
    match statsTryAt l with
    | some c => some c
    | none => statsAux t

def statsCaptures (line : String) : Option (Nat × Nat × Nat × Nat) := statsAux line.data

/-- Regex `Minimum\s*=\s*(\d+)ms,\s*Maximum\s*=\s*(\d+)ms,\s*Average\s*=\s*(\d+)ms`
tried at the head of the input. -/
def timingTryAt (l : Chars) : Option (Nat × Nat × Nat) :=
  match lit "Minimum" l with
  | none => none
  | some r =>
    match eqWsDigits r with
    | none => none
    | some (x, r) =>
      match lit "ms" r with
      | none => none
      | some r =>
        match r with
        | ',' :: r =>
          match lit "Maximum" (dropWs r) with
          | none => none
          | some r =>
            match eqWsDigits r with
            | none => none
            | some (y, r) =>
              match lit "ms" r with
              | none => none
              | some r =>
                match r with
                | ',' :: r =>
                  match lit "Average" (dropWs r) with
                  | none => none
                  | some r =>
                    match eqWsDigits r with
                    | none => none
                    | some (z, r) =>
                      match lit "ms" r with
                      | none => none
                      | some _ => some (digitsVal x, digitsVal y, digitsVal z)
                | _ => none
        | _ => none

def timingAux : Chars → Option (Nat × Nat × Nat)
  | [] => none
  | l@(_ :: t) =>
    match timingTryAt l with
    | some c => some c
    | none => timingAux t

def timingCaptures (line : String) : Option (Nat × Nat × Nat) := timingAux line.data

/-- Regex `Pinging\s+\S+\s+\[?(\d+\.\d+\.\d+\.\d+)\]?` tried at the head of the
input.  All quantifiers are forced (maximal munch); if the optional `[` is
present the IPv4 group must follow it. -/
def pingingTryAt (l : Chars) : Option String :=
  match lit "Pinging" l with
  | none => none
  | some r =>
    match ws1 r with
    | none => none
    | some r2 =>
      let tok := r2.takeWhile (fun c => !isWsChar c)
      let r3 := r2.dropWhile (fun c => !isWsChar c)
      if tok.isEmpty then none
      else
        match ws1 r3 with
        | none => none
        | some r4 =>
          match r4 with
          | '[' :: r5 => (ipv4At r5).map (·.1)
          | _ => (ipv4At r4).map (·.1)

def pingingAux : Chars → Option String
  | [] => none
  | l@(_ :: t) =>
    match pingingTryAt l with
    | some c => some c
    | none => pingingAux t

def pingingCaptures (line : String) : Option String := pingingAux line.data

structure PingResult where
  seq : Nat
  ttl : Option Nat
  time_ms : Option ℚ
deriving DecidableEq

structure PingData where
  host : String
  resolved_ip : Option String
  packets_sent : Nat
  packets_received : Nat
  packet_loss_percent : ℚ
  min_ms : Option ℚ
  avg_ms : Option ℚ
  max_ms : Option ℚ
  results : List PingResult
deriving DecidableEq

/-- State threaded through the per-line loop of `parse_ping_output`. -/
structure PingSt where
  resolved_ip : Option String
  seq : Nat
  received : Nat
  times : List ℚ
  results : List PingResult
deriving DecidableEq

/-- One iteration of the per-line loop of `parse_ping_output`. -/
def pingStep (st : PingSt) (line : String) : PingSt :=
  match replyCaptures line with
  | some rc =>
    { resolved_ip := match st.resolved_ip with
                     | none => some rc.ip
                     | some ip => some ip
      seq := st.seq + 1
      received := st.received + 1
      times := match rc.time with
               | some t => st.times ++ [(t : ℚ)]
               | none => st.times
      results := st.results ++
        [{ seq := st.seq + 1, ttl := rc.ttl, time_ms := rc.time.map (fun t => (t : ℚ)) }] }
  | none =>
    if timeoutMatch line then
      { st with
        seq := st.seq + 1
        results := st.results ++ [{ seq := st.seq + 1, ttl := none, time_ms := none }] }
    else st

/-- `times.iter().cloned().reduce(f64::min)`. -/
def minQ : List ℚ → Option ℚ
  | [] => none
  | h :: t => some (t.foldl min h)

/-- `times.iter().cloned().reduce(f64::max)`. -/
def maxQ : List ℚ → Option ℚ
  | [] => none
  | h :: t => some (t.foldl max h)

def pingInit (lines : List String) : PingSt :=
  { resolved_ip := findFirstSome pingingCaptures lines
    seq := 0
    received := 0
    times := []
    results := [] }

/-- The per-line pass of `parse_ping_output` (resolved-IP extraction followed by
the line loop). -/
def pingPerLine (lines : List String) : PingSt :=
  lines.foldl pingStep (pingInit lines)

/-- `parse_ping_output`, operating on the line list produced by
`output.lines()`. -/
def parse_ping_output_lines (lines : List String) (host : String) (count : Nat) : PingData :=
  let st := pingPerLine lines
  let base : PingData :=
    { host := host
      resolved_ip := st.resolved_ip
      packets_sent := count
      packets_received := st.received
      packet_loss_percent :=
        if 0 < count then ((u32Sub count st.received : ℚ) / (count : ℚ)) * 100 else 100
      min_ms := minQ st.times
      max_ms := maxQ st.times
      avg_ms := match st.times with
                | [] => none
                | ts => some (ts.sum / (ts.length : ℚ))
      results := st.results }
  let afterStats : PingData :=
    match findFirstSome statsCaptures lines with
    | some (a, b, _, d) =>
      { base with
        packets_sent := if a < 2 ^ 32 then a else base.packets_sent
        packets_received := if b < 2 ^ 32 then b else base.packets_received
        packet_loss_percent := (d : ℚ) }
    | none => base
  match findFirstSome timingCaptures lines with
  | some (x, y, z) =>
    { afterStats with
      min_ms := match afterStats.min_ms with
                | some v => some v
                | none => some (x : ℚ)
      max_ms := match afterStats.max_ms with
                | some v => some v
                | none => some (y : ℚ)
      avg_ms := match afterStats.avg_ms with
                | some v => some v
                | none => some (z : ℚ) }
  | none => afterStats

/-- `parse_ping_output` on the raw captured text. -/
def parse_ping_output (output host : String) (count : Nat) : PingData :=
  parse_ping_output_lines (rustLines output) host count

/-! ### WiFi scan parser (`src/commands/wifi.rs`) -/

/-- `signal_to_rssi`.  Rust `i32` division truncates toward zero; every signal
value reaching it is the nonnegative value of a `(\d+)%` capture, where
truncation toward zero and floor division agree, so `Int` division is a
faithful model on the reachable range. -/
def signal_to_rssi (signal_percent : Int) : Int :=
  -100 + signal_percent * 70 / 100

/-- `channel_to_frequency`. -/
def channel_to_frequency (channel : Nat) : String :=
  if channel = 0 then "Unknown"
  else if channel ≤ 14 then "2.4GHz"
  else "5GHz"

/-- Rust `str::to_lowercase` (ASCII range; the netsh tokens involved are
ASCII). -/
def rustToLower (s : String) : String := ⟨s.data.map Char.toLower⟩

/-- Rust `str::to_uppercase` (ASCII range). -/
def rustToUpper (s : String) : String := ⟨s.data.map Char.toUpper⟩

/-- `normalize_security`. -/
def normalize_security (auth : String) : String :=
  let auth_lower := rustToLower auth
  if strContains auth_lower "wpa3" then
    if strContains auth_lower "enterprise" then "WPA3-Enterprise" else "WPA3-SAE"
  else if strContains auth_lower "wpa2" then
    if strContains auth_lower "enterprise" then "WPA2-Enterprise" else "WPA2-Personal"
  else if strContains auth_lower "wpa" then
    if strContains auth_lower "enterprise" then "WPA-Enterprise" else "WPA-Personal"
  else if strContains auth_lower "wep" then "WEP"
  else if strContains auth_lower "open" then "Open"
  else auth

/-- Regex `^SSID\s+\d+\s*:\s*(.*)$` — anchored; capture is the rest of the line
after the colon with its leading whitespace consumed by `\s*` (the caller then
trims the capture, so the trimmed remainder is what matters). -/
def ssidCaptures (line : String) : Option String :=
  match lit "SSID" line.data with
  | none => none
  | some r =>
    match ws1 r with
    | none => none
    | some r2 =>
      match digits1 r2 with
      | none => none
      | some (_, r3) =>
        match dropWs r3 with
        | ':' :: r4 => some ⟨dropWs r4⟩
        | _ => none

/-- Regex `^\s*Authentication\s*:\s*(.+)$` — the capture requires a nonempty
remainder after the colon; with the caller's `.trim()` the result is the
trimmed remainder. -/
def securityCaptures (line : String) : Option String :=
  match lit "Authentication" (dropWs line.data) with
  | none => none
  | some r =>
    match dropWs r with
    | ':' :: r2 => if r2.isEmpty then none else some ⟨r2⟩
    | _ => none

def isHexColonChar (c : Char) : Bool :=
  c.isDigit || ('a' ≤ c && c ≤ 'f') || ('A' ≤ c && c ≤ 'F') || c == ':'

/-- Regex `^\s*BSSID\s+\d+\s*:\s*([0-9a-fA-F:]+)` — capture is the maximal
nonempty run of hex/colon characters after the colon and optional blanks. -/
def bssidCaptures (line : String) : Option String :=
  match lit "BSSID" (dropWs line.data) with
  | none => none
  | some r =>
    match ws1 r with
    | none => none
    | some r2 =>
      match digits1 r2 with
      | none => none
      | some (_, r3) =>
        match dropWs r3 with
        | ':' :: r4 =>
          let cap := (dropWs r4).takeWhile isHexColonChar
          if cap.isEmpty then none else some ⟨cap⟩
        | _ => none

/-- Regex `^\s*Signal\s*:\s*(\d+)%` — the digit run must be directly followed
by `%`. -/
def signalCaptures (line : String) : Option Chars :=
  match lit "Signal" (dropWs line.data) with
  | none => none
  | some r =>
    match dropWs r with
    | ':' :: r2 =>
      match digits1 (dropWs r2) with
      | some (d, '%' :: _) => some d
      | _ => none
    | _ => none

/-- Regex `^\s*Channel\s*:\s*(\d+)`. -/
def channelCaptures (line : String) : Option Chars :=
  match lit "Channel" (dropWs line.data) with
  | none => none
  | some r =>
    match dropWs r with
    | ':' :: r2 => (digits1 (dropWs r2)).map (·.1)
    | _ => none

structure WifiNetwork where
  ssid : String
  bssid : String
  signal_strength : Int
  signal_rssi : Int
  channel : Nat
  frequency : String
  security : String
  known : Bool
deriving DecidableEq

/-- State of the record-assembly loop of `parse_wifi_networks`. -/
structure WifiScanSt where
  networks : List WifiNetwork
  current_ssid : Option String
  current_security : Option String
  current_bssid : Option String
  current_signal : Option Int
  current_channel : Option Nat
deriving DecidableEq

/-- The `networks.push(WifiNetwork { .. })` block of `parse_wifi_networks`
(identical at its three occurrences). -/
def mkNetwork (known_networks : List String) (ssid bssid : String)
    (signal? : Option Int) (channel? : Option Nat) (security? : Option String) : WifiNetwork :=
  let signal := signal?.getD 0
  let channel := channel?.getD 0
  { ssid := ssid
    bssid := bssid
    signal_strength := signal
    signal_rssi := signal_to_rssi signal
    channel := channel
    frequency := channel_to_frequency channel
    security := security?.getD "Unknown"
    known := known_networks.contains ssid }

/-- `if let (Some(ssid), Some(bssid)) = (&current_ssid, &current_bssid) { push }`. -/
def flushPending (known_networks : List String) (st : WifiScanSt) : List WifiNetwork :=
  match st.current_ssid, st.current_bssid with
  | some s, some b =>
    [mkNetwork known_networks s b st.current_signal st.current_channel st.current_security]
  | _, _ => []

/-- One iteration of the line loop of `parse_wifi_networks`; the pattern checks
are sequential (non-exclusive) `if`s, exactly as in the source. -/
def wifiScanStep (known_networks : List String) (st : WifiScanSt) (line0 : String) : WifiScanSt :=
  let line := rustTrimEnd line0
  let st :=
    match ssidCaptures line with
    | some v =>
      { networks := st.networks ++ flushPending known_networks st
        current_ssid := some (rustTrim v)
        current_bssid := none
        current_signal := none
        current_channel := none
        current_security := none }
    | none => st
  let st :=
    match securityCaptures line with
    | some v => { st with current_security := some (normalize_security (rustTrim v)) }
    | none => st
  let st :=
    match bssidCaptures line with
    | some v =>
      { st with
        networks := st.networks ++ flushPending known_networks st
        current_bssid := some (rustToUpper v)
        current_signal := none
        current_channel := none }
    | none => st
  let st :=
    match signalCaptures line with
    | some d =>
      match rustParseI32 ⟨d⟩ with
      | some signal => { st with current_signal := some signal }
      | none => st
    | none => st
  match channelCaptures line with
  | some d =>
    match rustParseU32 ⟨d⟩ with
    | some channel => { st with current_channel := some channel }
    | none => st
  | none => st

def wifiScanInit : WifiScanSt :=
  { networks := []
    current_ssid := none
    current_security := none
    current_bssid := none
    current_signal := none
    current_channel := none }

/-- The full line loop of `parse_wifi_networks`. -/
def wifiScanFold (known_networks : List String) (lines : List String) : WifiScanSt :=
  lines.foldl (wifiScanStep known_networks) wifiScanInit

/-- The network list of `parse_wifi_networks` in emission (encounter) order,
before the final sort. -/
def parse_wifi_networks_raw (lines : List String) (known_networks : List String) :
    List WifiNetwork :=
  (wifiScanFold known_networks lines).networks ++
    flushPending known_networks (wifiScanFold known_networks lines)

/-- Sort order of `networks.sort_by(|a, b| b.signal_strength.cmp(&a.signal_strength))`:
descending signal strength. -/
def wifiLe (a b : WifiNetwork) : Prop :=
  b.signal_strength ≤ a.signal_strength

instance : DecidableRel wifiLe := fun a b =>
  inferInstanceAs (Decidable (b.signal_strength ≤ a.signal_strength))

instance : IsTotal WifiNetwork wifiLe :=
  ⟨fun a b => le_total b.signal_strength a.signal_strength⟩

instance : IsTrans WifiNetwork wifiLe :=
  ⟨fun _ _ _ h1 h2 => le_trans h2 h1⟩

/-- `parse_wifi_networks`, operating on the line list.  Rust's `sort_by` is a
stable sort; any stable sort under the same total preorder produces the same
list, so insertion sort is a faithful model. -/
def parse_wifi_networks_lines (lines : List String) (known_networks : List String) :
    List WifiNetwork :=
  List.insertionSort wifiLe (parse_wifi_networks_raw lines known_networks)

/-- `parse_wifi_networks` on the raw captured text. -/
def parse_wifi_networks (output : String) (known_networks : List String) : List WifiNetwork :=
  parse_wifi_networks_lines (rustLines output) known_networks

/-! ### Network status aggregator, WiFi pass (`src/commands/status.rs`) -/

structure NetworkStatus where
  connected : Bool
  connection_type : Option String
  interface : Option String
  ssid : Option String
  bssid : Option String
  signal_strength : Option Int
  signal_rssi : Option Int
  channel : Option Nat
  frequency : Option String
  link_speed : Option String
  ip_address : Option String
  subnet_mask : Option String
  gateway : Option String
  dns_servers : Option (List String)
  mac_address : Option String
deriving DecidableEq

/-- `NetworkStatus::default()`. -/
def emptyStatus : NetworkStatus :=
  { connected := false
    connection_type := none
    interface := none
    ssid := none
    bssid := none
    signal_strength := none
    signal_rssi := none
    channel := none
    frequency := none
    link_speed := none
    ip_address := none
    subnet_mask := none
    gateway := none
    dns_servers := none
    mac_address := none }

/-- Rust `str::starts_with`. -/
def strStartsWith (s p : String) : Bool := p.data.isPrefixOf s.data

def splitOnceColon : Chars → Option (Chars × Chars)
  | [] => none
  | c :: t =>
    if c = ':' then some ([], t)
    else (splitOnceColon t).map (fun p => (c :: p.1, p.2))

/-- `extract_value`: `line.split_once(':').map(|(_, v)| v.trim())`. -/
def extract_value (line : String) : Option String :=
  (splitOnceColon line.data).map (fun p => rustTrim ⟨p.2⟩)

/-- Rust `str::strip_suffix('%')`. -/
def stripPercent (s : String) : Option String :=
  match s.data.getLast? with
  | some '%' => some ⟨s.data.dropLast⟩
  | _ => none

/-- The inline frequency derivation of `get_wifi_status`
(`if channel <= 14 { "2.4GHz" } else { "5GHz" }`): unlike
`channel_to_frequency` it has no channel-0 case. -/
def statusFrequencyOfChannel (channel : Nat) : String :=
  if channel ≤ 14 then "2.4GHz" else "5GHz"

/-- The field-extraction block of `get_wifi_status`
(the `if let Some(value) = extract_value(line)` chain), applied to the
trimmed line. -/
def statusFieldUpd (st : NetworkStatus) (line : String) : NetworkStatus :=
  match extract_value line with
  | some v =>
    if strStartsWith line "State" then
      { st with connected := rustToLower v == "connected" }
    else if strStartsWith line "SSID" && !strStartsWith line "BSSID" then
      { st with ssid := some v }
    else if strStartsWith line "BSSID" then
      { st with bssid := some v }
    else if strStartsWith line "Signal" then
      match stripPercent v with
      | some percent =>
        match rustParseI32 (rustTrim percent) with
        | some signal =>
          { st with
            signal_strength := some signal
            signal_rssi := some (-100 + signal * 70 / 100) }
        | none => st
      | none => st
    else if strStartsWith line "Channel" then
      match rustParseU32 v with
      | some channel =>
        { st with
          channel := some channel
          frequency := some (statusFrequencyOfChannel channel) }
      | none => st
    else if strStartsWith line "Receive rate" || strStartsWith line "Transmit rate" then
      if st.link_speed = none then { st with link_speed := some v } else st
    else st
  | none => st

/-- The line loop of `get_wifi_status`, with its mutable
`status`/`current_interface`/`found_interface` state and early `break`. -/
def wifiStatusLoop (filterI : Option String) :
    List String → NetworkStatus → String → Bool → NetworkStatus
  | [], st, _, _ => st
  | l0 :: rest, st, cur, found =>
    let line := rustTrim l0
    let nameHeader := strStartsWith line "Name"
    let s1 :=
      if nameHeader then
        match extract_value line with
        | some v =>
          if filterI = none ∨ filterI = some v then
            ({ st with interface := some v, connection_type := some "wifi" }, v, true)
          else (st, v, found)
        | none => (st, cur, found)
      else (st, cur, found)
    let st := s1.1
    let cur := s1.2.1
    let found := s1.2.2
    if !found then wifiStatusLoop filterI rest st cur found
    else
      let st := statusFieldUpd st line
      if nameHeader && !(cur == "") &&
          (match st.interface with
           | some iface => !(cur == iface)
           | none => false) then st
      else wifiStatusLoop filterI rest st cur found

/-- `get_wifi_status`, operating on the line list of the captured
`netsh wlan show interfaces` output. -/
def get_wifi_status_lines (filterI : Option String) (lines : List String) : NetworkStatus :=
  wifiStatusLoop filterI lines emptyStatus "" false

/-- `get_wifi_status` on the raw captured text. -/
def get_wifi_status (filterI : Option String) (output : String) : NetworkStatus :=
  get_wifi_status_lines filterI (rustLines output)

/-! ### Traceroute output parser (`src/commands/trace.rs`) -/

structure HopResult where
  hop : Nat
  ip : String
  hostname : Option String
  time_ms : Option (List ℚ)
deriving DecidableEq

structure TraceData where
  host : String
  hops : List HopResult
  destination_reached : Bool
  total_hops : Nat
deriving DecidableEq

/-- Captures of the anchored hop pattern
`^\s*(\d+)\s+(?:(<?\d+)\s*ms|(\*))\s+(?:(<?\d+)\s*ms|(\*))\s+(?:(<?\d+)\s*ms|(\*))\s+(.+)$`:
the hop digit run, the three optional time captures (with their optional `<`),
and the trailing `.+` capture. -/
structure HopCaps where
  hopDigits : Chars
  t1 : Option Chars
  t2 : Option Chars
  t3 : Option Chars
  rest : String
deriving DecidableEq

/-- One probe field `(?:(<?\d+)\s*ms|(\*))`, tried at the head.  The first
alternative is tried first; on its failure (including a failed `ms` literal)
the `*` alternative applies only if the head is `*`. -/
def probeAt (l : Chars) : Option (Option Chars × Chars) :=
  let timeAlt : Option (Chars × Chars) :=
    match l with
    | '<' :: t =>
      match digits1 t with
      | some (d, r) => some ('<' :: d, r)
      | none => none
    | _ => digits1 l
  match timeAlt with
  | some (cap, r) =>
    match lit "ms" (dropWs r) with
    | some r2 => some (some cap, r2)
    | none => none
  | none =>
    match l with
    | '*' :: t => some (none, t)
    | _ => none

/-- `\s+(.+)$` after the third probe: at least one blank, then a nonempty
remainder; when the remainder is all blanks the greedy/lazy interplay leaves
the last blank as the capture. -/
def hopRestAt (l : Chars) : Option String :=
  let w := l.takeWhile isWsChar
  let t := l.dropWhile isWsChar
  if w.isEmpty then none
  else if !t.isEmpty then some ⟨t⟩
  else
    match w with
    | _ :: c :: cs => some ⟨[(c :: cs).getLastD c]⟩
    | _ => none

def hopCaptures (line : String) : Option HopCaps :=
  match digits1 (dropWs line.data) with
  | none => none
  | some (d, r) =>
    match ws1 r with
    | none => none
    | some r1 =>
      match probeAt r1 with
      | none => none
      | some (t1, r2) =>
        match ws1 r2 with
        | none => none
        | some r3 =>
          match probeAt r3 with
          | none => none
          | some (t2, r4) =>
            match ws1 r4 with
            | none => none
            | some r5 =>
              match probeAt r5 with
              | none => none
              | some (t3, r6) =>
                (hopRestAt r6).map (fun rest => ⟨d, t1, t2, t3, rest⟩)

/-- Leftmost match of `(\d+\.\d+\.\d+\.\d+)` anywhere in the input. -/
def findIpv4Sub : Chars → Option String
  | [] => none
  | l@(_ :: t) =>
    match ipv4At l with
    | some (ip, _) => some ip
    | none => findIpv4Sub t

/-- `(\S+)\s+\[(\d+\.\d+\.\d+\.\d+)\]` tried at the head. -/
def hostIpTryAt (l : Chars) : Option (String × String) :=
  let tok := l.takeWhile (fun c => !isWsChar c)
  let r := l.dropWhile (fun c => !isWsChar c)
  if tok.isEmpty then none
  else
    match ws1 r with
    | none => none
    | some r2 =>
      match r2 with
      | '[' :: r3 =>
        match ipv4At r3 with
        | some (ip, ']' :: _) => some (⟨tok⟩, ip)
        | _ => none
      | _ => none

def hostIpFind : Chars → Option (String × String)
  | [] => none
  | l@(_ :: t) =>
    match hostIpTryAt l with
    | some c => some c
    | none => hostIpFind t

/-- The IPv4 group of `Tracing route to.*\[?(\d+\.\d+\.\d+\.\d+)\]?`: the
greedy `.*` backtracks from the right, so the group matches at the *last*
viable start of the line remainder. -/
def lastBracketIp : Chars → Option String
  | [] => none
  | l@(_ :: t) =>
    match lastBracketIp t with
    | some ip => some ip
    | none =>
      match l with
      | '[' :: r => (ipv4At r).map (·.1)
      | _ => (ipv4At l).map (·.1)

def destFind : Chars → Option String
  | [] => none
  | l@(_ :: t) =>
    match lit "Tracing route to" l with
    | some r =>
      match lastBracketIp r with
      | some ip => some ip
      | none => destFind t
    | none => destFind t

def destCaptures (line : String) : Option String := destFind line.data

/-- One iteration of the line loop of `parse_tracert_output`. -/
def traceStep (dest : Option String) (acc : TraceData) (line : String) : TraceData :=
  match hopCaptures line with
  | none => acc
  | some caps =>
    let hop_num := (rustParseU32 ⟨caps.hopDigits⟩).getD 0
    let times : List ℚ :=
      ([caps.t1, caps.t2, caps.t3].filterMap id).map
        (fun d => ((digitsVal (d.dropWhile (fun c => c == '<'))) : ℚ))
    let rest := rustTrim caps.rest
    let ipHost : String × Option String :=
      if strContains rest "Request timed out" || rest == "*" then ("*", none)
      else
        match hostIpFind rest.data with
        | some (h, ip) => (ip, some h)
        | none =>
          match findIpv4Sub rest.data with
          | some ip => (ip, none)
          | none => (rest, none)
    let reached := acc.destination_reached ||
      (match dest with
       | some d => ipHost.1 == d
       | none => false)
    { acc with
      hops := acc.hops ++
        [{ hop := hop_num, ip := ipHost.1, hostname := ipHost.2,
           time_ms := if times.isEmpty then none else some times }]
      destination_reached := reached
      total_hops := hop_num }

def traceInit (host : String) : TraceData :=
  { host := host, hops := [], destination_reached := false, total_hops := 0 }

/-- The hop index stored for a line: the hop digit capture parsed as `u32` with
`unwrap_or(0)`; `none` for lines not matching the hop pattern. -/
def hopNumOf (line : String) : Option Nat :=
  (hopCaptures line).map (fun caps => (rustParseU32 ⟨caps.hopDigits⟩).getD 0)

/-- `parse_tracert_output`, operating on the line list. -/
def parse_tracert_output_lines (lines : List String) (host : String) : TraceData :=
  if lines.any (fun l => containsSubAux "Trace complete".data l.data) then
    { lines.foldl (traceStep (findFirstSome destCaptures lines)) (traceInit host) with
        destination_reached := true }
  else lines.foldl (traceStep (findFirstSome destCaptures lines)) (traceInit host)

/-- `parse_tracert_output` on the raw captured text. -/
def parse_tracert_output (output host : String) : TraceData :=
  parse_tracert_output_lines (rustLines output) host

/-! ### Helper lemmas: ping -/

/-- Number of lines matched by the reply pattern. -/
def replyCount (lines : List String) : Nat :=
  (lines.filter (fun l => (replyCaptures l).isSome)).length

theorem replyCount_cons (l : String) (t : List String) :
    replyCount (l :: t) = (if (replyCaptures l).isSome then 1 else 0) + replyCount t := by
  unfold replyCount
  rw [List.filter_cons]
  by_cases h : (replyCaptures l).isSome <;> simp [h, Nat.add_comm]

theorem pingFold_received (lines : List String) :
    ∀ st : PingSt, (lines.foldl pingStep st).received = st.received + replyCount lines := by
  induction lines with
  | nil => intro st; simp [replyCount]
  | cons l t ih =>
    intro st
    rw [List.foldl_cons, ih, replyCount_cons]
    cases h : replyCaptures l with
    | some rc => simp [pingStep, h]; omega
    | none =>
      by_cases ht : timeoutMatch l <;> simp [pingStep, h, ht]

theorem pingFold_seq_results (lines : List String)
    (h : ∀ l ∈ lines, (replyCaptures l).isSome = true ∨ timeoutMatch l = true) :
    ∀ st : PingSt,
      (lines.foldl pingStep st).seq = st.seq + lines.length ∧
      (lines.foldl pingStep st).results.map PingResult.seq =
        st.results.map PingResult.seq ++ List.range' (st.seq + 1) lines.length := by
  induction lines with
  | nil => intro st; simp
  | cons l t ih =>
    intro st
    have hl := h l (List.mem_cons_self l t)
    have ht : ∀ x ∈ t, (replyCaptures x).isSome = true ∨ timeoutMatch x = true :=
      fun x hx => h x (List.mem_cons_of_mem l hx)
    rw [List.foldl_cons]
    obtain ⟨ihs, ihr⟩ := ih ht (pingStep st l)
    have hstep : (pingStep st l).seq = st.seq + 1 ∧
        (pingStep st l).results = st.results ++
          [{ seq := st.seq + 1,
             ttl := match replyCaptures l with
                    | some rc => rc.ttl
                    | none => none,
             time_ms := match replyCaptures l with
                        | some rc => rc.time.map (fun t => (t : ℚ))
                        | none => none }] := by
      cases hc : replyCaptures l with
      | some rc => simp [pingStep, hc]
      | none =>
        have htm : timeoutMatch l = true := by
          rcases hl with hl | hl
          · rw [hc] at hl; simp at hl
          · exact hl
        simp [pingStep, hc, htm]
    refine ⟨?_, ?_⟩
    · rw [ihs, hstep.1, List.length_cons]; omega
    · rw [ihr, hstep.1, hstep.2, List.length_cons, List.range'_succ]
      simp

theorem parse_ping_results_eq (lines : List String) (host : String) (count : Nat) :
    (parse_ping_output_lines lines host count).results = (pingPerLine lines).results := by
  unfold parse_ping_output_lines
  rcases hfs : findFirstSome statsCaptures lines with _ | ⟨a, b, c, d⟩ <;>
    rcases hft : findFirstSome timingCaptures lines with _ | ⟨x, y, z⟩ <;>
      simp [hfs, hft]

theorem parse_ping_sent_received_of_stats_none (lines : List String) (host : String)
    (count : Nat) (h : findFirstSome statsCaptures lines = none) :
    (parse_ping_output_lines lines host count).packets_sent = count ∧
      (parse_ping_output_lines lines host count).packets_received =
        (pingPerLine lines).received := by
  unfold parse_ping_output_lines
  rcases hft : findFirstSome timingCaptures lines with _ | ⟨x, y, z⟩ <;> simp [h, hft]

theorem parse_ping_sent_received_of_stats_some (lines : List String) (host : String)
    (count : Nat) (a b c d : Nat)
    (h : findFirstSome statsCaptures lines = some (a, b, c, d)) :
    (parse_ping_output_lines lines host count).packets_sent =
        (if a < 2 ^ 32 then a else count) ∧
      (parse_ping_output_lines lines host count).packets_received =
        (if b < 2 ^ 32 then b else (pingPerLine lines).received) ∧
      (parse_ping_output_lines lines host count).packet_loss_percent = (d : ℚ) := by
  unfold parse_ping_output_lines
  rcases hft : findFirstSome timingCaptures lines with _ | ⟨x, y, z⟩ <;> simp [h, hft]

theorem parse_ping_timing_of_some (lines : List String) (host : String) (count : Nat)
    (x y z : Nat) (h : findFirstSome timingCaptures lines = some (x, y, z)) :
    (parse_ping_output_lines lines host count).min_ms =
        (match minQ (pingPerLine lines).times with
         | some v => some v
         | none => some (x : ℚ)) ∧
      (parse_ping_output_lines lines host count).max_ms =
        (match maxQ (pingPerLine lines).times with
         | some v => some v
         | none => some (y : ℚ)) ∧
      (parse_ping_output_lines lines host count).avg_ms =
        (match (pingPerLine lines).times with
         | [] => some (z : ℚ)
         | ts => some (ts.sum / (ts.length : ℚ))) := by
  unfold parse_ping_output_lines
  rcases hfs : findFirstSome statsCaptures lines with _ | ⟨a, b, c, d⟩ <;>
    simp only [hfs, h] <;>
      rcases hts : (pingPerLine lines).times with _ | ⟨t0, ts⟩ <;>
        simp [minQ, maxQ, hts]

/-! ### Claims: ping parser -/

/-- C1: the spec claims each reply line's sample carries the captured
round-trip time and TTL.  On the canonical reply line (the very line quoted in
the source comment) the parser stores `time_ms = none`: the optional time group
of the reply regex can only participate when the time token immediately follows
the colon, which it never does in real output.  The TTL is captured; the time
is silently lost. -/
theorem C1_reply_time_is_dropped :
    (parse_ping_output_lines
        ["Pinging example.com [142.250.80.46] with 32 bytes of data:",
         "Reply from 142.250.80.46: bytes=32 time=12ms TTL=117"]
        "example.com" 1).results =
      [{ seq := 1, ttl := some 117, time_ms := none }] ∧
    strContains "Reply from 142.250.80.46: bytes=32 time=12ms TTL=117" "time=12ms" = true := by
  decide

/-- C2 counterexample: an input with two reply lines and requested count 1 and
no statistics line yields `packets_received = 2 > 1 = packets_sent`, so the
claimed invariant fails (and the `u32` loss subtraction underflows). -/
theorem C2_received_can_exceed_sent :
    (parse_ping_output_lines ["Reply from 1.2.3.4: TTL=5", "Reply from 1.2.3.4: TTL=5"]
        "h" 1).packets_sent = 1 ∧
    (parse_ping_output_lines ["Reply from 1.2.3.4: TTL=5", "Reply from 1.2.3.4: TTL=5"]
        "h" 1).packets_received = 2 ∧
    ¬((parse_ping_output_lines ["Reply from 1.2.3.4: TTL=5", "Reply from 1.2.3.4: TTL=5"]
        "h" 1).packets_received ≤
      (parse_ping_output_lines ["Reply from 1.2.3.4: TTL=5", "Reply from 1.2.3.4: TTL=5"]
        "h" 1).packets_sent) := by
  decide

/-- C2 (amended): `packets_received ≤ packets_sent` holds whenever the
statistics line, if present, reports `Received ≤ Sent` (with both values in
`u32` range), and otherwise whenever the number of reply-matching lines does
not exceed the requested count. -/
theorem C2_received_le_sent (lines : List String) (host : String) (count : Nat)
    (h : match findFirstSome statsCaptures lines with
         | some (a, b, _, _) => b ≤ a ∧ a < 2 ^ 32 ∧ b < 2 ^ 32
         | none => replyCount lines ≤ count) :
    (parse_ping_output_lines lines host count).packets_received ≤
      (parse_ping_output_lines lines host count).packets_sent := by
  rcases hfs : findFirstSome statsCaptures lines with _ | ⟨a, b, c, d⟩
  · simp only [hfs] at h
    obtain ⟨hsent, hrecv⟩ := parse_ping_sent_received_of_stats_none lines host count hfs
    rw [hsent, hrecv]
    unfold pingPerLine
    rw [pingFold_received]
    simpa [pingInit] using h
  · simp only [hfs] at h
    obtain ⟨h1, h2, h3⟩ := h
    obtain ⟨hsent, hrecv, _⟩ :=
      parse_ping_sent_received_of_stats_some lines host count a b c d hfs
    rw [hsent, hrecv, if_pos h2, if_pos h3]
    exact h1

theorem C2_received_le_sent_witness :
    (parse_ping_output_lines ["Reply from 1.2.3.4: bytes=32 TTL=64", "Request timed out."]
        "h" 4).packets_received ≤
      (parse_ping_output_lines ["Reply from 1.2.3.4: bytes=32 TTL=64", "Request timed out."]
        "h" 4).packets_sent :=
  C2_received_le_sent ["Reply from 1.2.3.4: bytes=32 TTL=64", "Request timed out."] "h" 4
    (show replyCount ["Reply from 1.2.3.4: bytes=32 TTL=64", "Request timed out."] ≤ 4
      by decide)

/-- C7: a statistics summary line is authoritative — its Sent/Received/loss
values (when in `u32` range) override the per-line computation regardless of
the per-line results — while a timing summary line only fills min/max/avg
where the per-line pass produced none, per-line timing taking precedence. -/
theorem C7_summary_precedence (lines : List String) (host : String) (count : Nat) :
    (∀ a b c d : Nat, findFirstSome statsCaptures lines = some (a, b, c, d) →
       a < 2 ^ 32 → b < 2 ^ 32 →
       (parse_ping_output_lines lines host count).packets_sent = a ∧
       (parse_ping_output_lines lines host count).packets_received = b ∧
       (parse_ping_output_lines lines host count).packet_loss_percent = (d : ℚ)) ∧
    (∀ x y z : Nat, findFirstSome timingCaptures lines = some (x, y, z) →
       (parse_ping_output_lines lines host count).min_ms =
         (match minQ (pingPerLine lines).times with
          | some v => some v
          | none => some (x : ℚ)) ∧
       (parse_ping_output_lines lines host count).max_ms =
         (match maxQ (pingPerLine lines).times with
          | some v => some v
          | none => some (y : ℚ)) ∧
       (parse_ping_output_lines lines host count).avg_ms =
         (match (pingPerLine lines).times with
          | [] => some (z : ℚ)
          | ts => some (ts.sum / (ts.length : ℚ)))) := by
  constructor
  · intro a b c d hfs ha hb
    obtain ⟨hsent, hrecv, hloss⟩ :=
      parse_ping_sent_received_of_stats_some lines host count a b c d hfs
    rw [hsent, hrecv, if_pos ha, if_pos hb]
    exact ⟨rfl, rfl, hloss⟩
  · intro x y z hft
    exact parse_ping_timing_of_some lines host count x y z hft

theorem C7_summary_precedence_witness :
    ((parse_ping_output_lines ["    Packets: Sent = 4, Received = 3, Lost = 1 (25% loss),"]
        "h" 9).packets_sent = 4 ∧
     (parse_ping_output_lines ["    Packets: Sent = 4, Received = 3, Lost = 1 (25% loss),"]
        "h" 9).packets_received = 3 ∧
     (parse_ping_output_lines ["    Packets: Sent = 4, Received = 3, Lost = 1 (25% loss),"]
        "h" 9).packet_loss_percent = (25 : ℚ)) ∧
    (parse_ping_output_lines ["    Minimum = 12ms, Maximum = 18ms, Average = 15ms"]
        "h" 9).min_ms = some (12 : ℚ) :=
  ⟨(C7_summary_precedence ["    Packets: Sent = 4, Received = 3, Lost = 1 (25% loss),"]
      "h" 9).1 4 3 1 25 (by decide) (by decide) (by decide),
   ((C7_summary_precedence ["    Minimum = 12ms, Maximum = 18ms, Average = 15ms"]
      "h" 9).2 12 18 15 (by decide)).1⟩

/-- C8: on an output of `k` reply lines and `n − k` timeout lines with no
statistics line, where `n` is the number of lines and equals the requested
count: `packets_received = k`, `packets_sent = n`, and the sample sequence
numbers are exactly `1..n` in encounter order. -/
theorem C8_counts_and_sequence (lines : List String) (host : String) (count : Nat)
    (hclass : ∀ l ∈ lines, (replyCaptures l).isSome = true ∨ timeoutMatch l = true)
    (hn : lines.length = count)
    (hstats : findFirstSome statsCaptures lines = none) :
    (parse_ping_output_lines lines host count).packets_received = replyCount lines ∧
      (parse_ping_output_lines lines host count).packets_sent = count ∧
      (parse_ping_output_lines lines host count).results.map PingResult.seq =
        List.range' 1 count := by
  obtain ⟨hsent, hrecv⟩ := parse_ping_sent_received_of_stats_none lines host count hstats
  refine ⟨?_, hsent, ?_⟩
  · rw [hrecv]
    unfold pingPerLine
    rw [pingFold_received]
    simp [pingInit]
  · rw [parse_ping_results_eq]
    have hsr := (pingFold_seq_results lines hclass (pingInit lines)).2
    unfold pingPerLine
    rw [hsr]
    simp [pingInit, hn]

theorem C8_counts_and_sequence_witness :
    (parse_ping_output_lines ["Reply from 1.2.3.4: bytes=32 TTL=64", "Request timed out."]
        "example.com" 2).packets_received =
      replyCount ["Reply from 1.2.3.4: bytes=32 TTL=64", "Request timed out."] ∧
    (parse_ping_output_lines ["Reply from 1.2.3.4: bytes=32 TTL=64", "Request timed out."]
        "example.com" 2).packets_sent = 2 ∧
    (parse_ping_output_lines ["Reply from 1.2.3.4: bytes=32 TTL=64", "Request timed out."]
        "example.com" 2).results.map PingResult.seq = List.range' 1 2 :=
  C8_counts_and_sequence ["Reply from 1.2.3.4: bytes=32 TTL=64", "Request timed out."]
    "example.com" 2 (by decide) (by decide) (by decide)

/-! ### Helper lemmas: WiFi scan sort stability -/

theorem filter_orderedInsert_signal (s : Int) (a : WifiNetwork) (l : List WifiNetwork) :
    (List.orderedInsert wifiLe a l).filter (fun nw => nw.signal_strength == s) =
      if a.signal_strength == s then
        a :: l.filter (fun nw => nw.signal_strength == s)
      else l.filter (fun nw => nw.signal_strength == s) := by
  induction l with
  | nil =>
    by_cases pa : (a.signal_strength == s) <;>
      simp [List.orderedInsert, List.filter, pa]
  | cons b t ih =>
    simp only [List.orderedInsert]
    by_cases hab : wifiLe a b
    · rw [if_pos hab]
      by_cases pa : (a.signal_strength == s) <;> simp [List.filter_cons, pa]
    · rw [if_neg hab]
      have hlt : a.signal_strength < b.signal_strength := not_le.mp hab
      by_cases pa : (a.signal_strength == s)
      · have has : a.signal_strength = s := by simpa using pa
        have hbs : (b.signal_strength == s) = false := by
          simp only [beq_eq_false_iff_ne, ne_eq]
          omega
        simp [List.filter_cons, pa, hbs, ih]
      · simp [List.filter_cons, pa, ih]

theorem filter_insertionSort_signal (s : Int) (l : List WifiNetwork) :
    (List.insertionSort wifiLe l).filter (fun nw => nw.signal_strength == s) =
      l.filter (fun nw => nw.signal_strength == s) := by
  induction l with
  | nil => rfl
  | cons a t ih =>
    simp only [List.insertionSort]
    rw [filter_orderedInsert_signal]
    by_cases pa : (a.signal_strength == s) <;> simp [List.filter_cons, pa, ih]

/-! ### Claims: WiFi scan parser and derived metrics -/

/-- C4 counterexample: the status aggregator's WiFi pass derives the frequency
band inline without the channel-0 case, reporting "2.4GHz" (not "Unknown") for
channel 0, so the claimed rule does not hold everywhere a band is derived. -/
theorem C4_status_channel_zero_band :
    (get_wifi_status_lines none ["Name : W", "Channel : 0"]).channel = some 0 ∧
    (get_wifi_status_lines none ["Name : W", "Channel : 0"]).frequency = some "2.4GHz" ∧
    (some "2.4GHz" : Option String) ≠ some "Unknown" := by
  decide

/-- C4 (amended): the scan parser's `channel_to_frequency` satisfies the
claimed rule ("Unknown" iff 0, "2.4GHz" iff 1..14, "5GHz" above 14); the
status aggregator's inline derivation has no "Unknown" case and maps every
channel ≤ 14 — including 0 — to "2.4GHz" and every channel > 14 to "5GHz". -/
theorem C4_frequency_rule (channel : Nat) :
    ((channel_to_frequency channel = "Unknown") ↔ channel = 0) ∧
    ((channel_to_frequency channel = "2.4GHz") ↔ (1 ≤ channel ∧ channel ≤ 14)) ∧
    (14 < channel → channel_to_frequency channel = "5GHz") ∧
    (channel ≤ 14 → statusFrequencyOfChannel channel = "2.4GHz") ∧
    (14 < channel → statusFrequencyOfChannel channel = "5GHz") := by
  have hu24 : ("Unknown" : String) ≠ "2.4GHz" := by decide
  have h24u : ("2.4GHz" : String) ≠ "Unknown" := by decide
  have h5u : ("5GHz" : String) ≠ "Unknown" := by decide
  have h524 : ("5GHz" : String) ≠ "2.4GHz" := by decide
  unfold channel_to_frequency statusFrequencyOfChannel
  by_cases h0 : channel = 0
  · subst h0
    simp [hu24]
  · by_cases h14 : channel ≤ 14
    · rw [if_neg h0, if_pos h14]
      refine ⟨by simp [h24u, h0], by simp [h14]; omega,
        fun h => absurd h (by omega), fun _ => rfl, fun h => absurd h (by omega)⟩
    · rw [if_neg h0, if_neg h14]
      refine ⟨by simp [h5u, h0], by simp [h524]; omega, fun _ => rfl,
        fun h => absurd h (by omega), fun _ => rfl⟩

theorem C4_frequency_rule_witness :
    channel_to_frequency 149 = "5GHz" ∧ statusFrequencyOfChannel 0 = "2.4GHz" :=
  ⟨(C4_frequency_rule 149).2.2.1 (by decide), (C4_frequency_rule 0).2.2.2.1 (by decide)⟩

/-- C6 counterexample: the "Enterprise" qualifier is not appended to every
detected label — an authentication string containing both "wep" and
"enterprise" normalizes to plain "WEP", not "WEP-Enterprise". -/
theorem C6_enterprise_not_appended_to_wep :
    normalize_security "WEP enterprise" = "WEP" ∧ ("WEP" : String) ≠ "WEP-Enterprise" := by
  decide

/-- C6 (amended): security labels are detected by case-insensitive substring
priority WPA3 > WPA2 > WPA > WEP > Open; the independently detected
"Enterprise" qualifier applies only within the WPA family (WPA3 →
WPA3-Enterprise/WPA3-SAE, WPA2 → WPA2-Enterprise/WPA2-Personal, WPA →
WPA-Enterprise/WPA-Personal), while WEP and Open ignore it; unmatched strings
pass through verbatim. -/
theorem C6_security_normalization (auth : String) :
    (strContains (rustToLower auth) "wpa3" = true →
       normalize_security auth =
         if strContains (rustToLower auth) "enterprise" then "WPA3-Enterprise"
         else "WPA3-SAE") ∧
    (strContains (rustToLower auth) "wpa3" = false →
       strContains (rustToLower auth) "wpa2" = true →
       normalize_security auth =
         if strContains (rustToLower auth) "enterprise" then "WPA2-Enterprise"
         else "WPA2-Personal") ∧
    (strContains (rustToLower auth) "wpa3" = false →
       strContains (rustToLower auth) "wpa2" = false →
       strContains (rustToLower auth) "wpa" = true →
       normalize_security auth =
         if strContains (rustToLower auth) "enterprise" then "WPA-Enterprise"
         else "WPA-Personal") ∧
    (strContains (rustToLower auth) "wpa3" = false →
       strContains (rustToLower auth) "wpa2" = false →
       strContains (rustToLower auth) "wpa" = false →
       strContains (rustToLower auth) "wep" = true →
       normalize_security auth = "WEP") ∧
    (strContains (rustToLower auth) "wpa3" = false →
       strContains (rustToLower auth) "wpa2" = false →
       strContains (rustToLower auth) "wpa" = false →
       strContains (rustToLower auth) "wep" = false →
       strContains (rustToLower auth) "open" = true →
       normalize_security auth = "Open") ∧
    (strContains (rustToLower auth) "wpa3" = false →
       strContains (rustToLower auth) "wpa2" = false →
       strContains (rustToLower auth) "wpa" = false →
       strContains (rustToLower auth) "wep" = false →
       strContains (rustToLower auth) "open" = false →
       normalize_security auth = auth) := by
  refine ⟨?_, ?_, ?_, ?_, ?_, ?_⟩
  · intro h3
    simp [normalize_security, h3]
  · intro h3 h2
    simp [normalize_security, h3, h2]
  · intro h3 h2 h1
    simp [normalize_security, h3, h2, h1]
  · intro h3 h2 h1 hwep
    simp [normalize_security, h3, h2, h1, hwep]
  · intro h3 h2 h1 hwep hopen
    simp [normalize_security, h3, h2, h1, hwep, hopen]
  · intro h3 h2 h1 hwep hopen
    simp [normalize_security, h3, h2, h1, hwep, hopen]

theorem C6_security_normalization_witness :
    normalize_security "WPA2-Personal" = "WPA2-Personal" ∧
    normalize_security "WPA3-Enterprise" = "WPA3-Enterprise" :=
  ⟨(C6_security_normalization "WPA2-Personal").2.1 (by decide) (by decide),
   (C6_security_normalization "WPA3-Enterprise").1 (by decide)⟩

/-- C9: the scan parser's output is sorted by descending signal percent, and
records of equal signal percent appear in their original emission (encounter)
order: filtering the sorted output at any signal value yields exactly the
pre-sort emission list filtered at that value. -/
theorem C9_scan_sorted_and_stable (lines : List String) (known_networks : List String) :
    List.Sorted wifiLe (parse_wifi_networks_lines lines known_networks) ∧
    ∀ s : Int,
      (parse_wifi_networks_lines lines known_networks).filter
          (fun nw => nw.signal_strength == s) =
        (parse_wifi_networks_raw lines known_networks).filter
          (fun nw => nw.signal_strength == s) := by
  unfold parse_wifi_networks_lines
  exact ⟨List.sorted_insertionSort wifiLe _, fun s => filter_insertionSort_signal s _⟩

/-- C10: a pending record with both SSID and BSSID set is emitted even when its
block produced no Signal/Channel/Authentication values: signal defaults to 0
(so RSSI is -100), channel defaults to 0 (so the band is "Unknown"), security
defaults to "Unknown", and the record appears in the final output. -/
theorem C10_pending_record_defaults (lines : List String) (known_networks : List String)
    (s b : String)
    (h1 : (wifiScanFold known_networks lines).current_ssid = some s)
    (h2 : (wifiScanFold known_networks lines).current_bssid = some b)
    (h3 : (wifiScanFold known_networks lines).current_signal = none)
    (h4 : (wifiScanFold known_networks lines).current_channel = none)
    (h5 : (wifiScanFold known_networks lines).current_security = none) :
    ({ ssid := s, bssid := b, signal_strength := 0, signal_rssi := -100, channel := 0,
       frequency := "Unknown", security := "Unknown",
       known := known_networks.contains s } : WifiNetwork) ∈
      parse_wifi_networks_lines lines known_networks := by
  unfold parse_wifi_networks_lines
  rw [List.mem_insertionSort]
  unfold parse_wifi_networks_raw
  have hf : flushPending known_networks (wifiScanFold known_networks lines) =
      [{ ssid := s, bssid := b, signal_strength := 0, signal_rssi := -100, channel := 0,
         frequency := "Unknown", security := "Unknown",
         known := known_networks.contains s }] := by
    simp only [flushPending, h1, h2, h3, h4, h5, mkNetwork, Option.getD]
    norm_num [signal_to_rssi, channel_to_frequency]
  rw [hf]
  simp

theorem C10_pending_record_defaults_witness :
    ({ ssid := "Foo", bssid := "AA:BB", signal_strength := 0, signal_rssi := -100, channel := 0,
       frequency := "Unknown", security := "Unknown", known := false } : WifiNetwork) ∈
      parse_wifi_networks_lines ["SSID 1 : Foo", "    BSSID 1 : aa:bb"] [] :=
  C10_pending_record_defaults ["SSID 1 : Foo", "    BSSID 1 : aa:bb"] [] "Foo" "AA:BB"
    (by decide) (by decide) (by decide) (by decide) (by decide)

/-! ### Helper lemmas: traceroute -/

theorem traceStep_hop_fields (dest : Option String) (acc : TraceData) (l : String) :
    (traceStep dest acc l).hops.map HopResult.hop =
      acc.hops.map HopResult.hop ++ (hopNumOf l).toList ∧
    (traceStep dest acc l).total_hops = (hopNumOf l).getD acc.total_hops := by
  cases hc : hopCaptures l <;> simp [traceStep, hopNumOf, hc]

theorem traceFold_hops (dest : Option String) (lines : List String) :
    ∀ acc : TraceData,
      (lines.foldl (traceStep dest) acc).hops.map HopResult.hop =
        acc.hops.map HopResult.hop ++ lines.filterMap hopNumOf ∧
      (lines.foldl (traceStep dest) acc).total_hops =
        (lines.filterMap hopNumOf).getLastD acc.total_hops := by
  induction lines with
  | nil => intro acc; simp
  | cons l t ih =>
    intro acc
    rw [List.foldl_cons]
    obtain ⟨ih1, ih2⟩ := ih (traceStep dest acc l)
    obtain ⟨hs1, hs2⟩ := traceStep_hop_fields dest acc l
    constructor
    · rw [ih1, hs1, List.filterMap_cons]
      cases hopNumOf l <;> simp
    · rw [ih2, hs2, List.filterMap_cons]
      cases hopNumOf l
      · rfl
      · simp only [Option.getD_some, List.getLastD_cons]

/-! ### Claims: traceroute parser -/

/-- C5 counterexample: on an input whose printed hop indices decrease (3 then
2), `total_hops` is 2 — the index of the *last* parsed hop line — while the
maximum hop index seen is 3, so the claimed `total_hops = max` fails. -/
theorem C5_total_hops_not_max :
    (parse_tracert_output_lines
        ["  3     1 ms     1 ms     1 ms  10.0.0.1",
         "  2     1 ms     1 ms     1 ms  10.0.0.2"] "h").total_hops = 2 ∧
    ((parse_tracert_output_lines
        ["  3     1 ms     1 ms     1 ms  10.0.0.1",
         "  2     1 ms     1 ms     1 ms  10.0.0.2"] "h").hops.map HopResult.hop).foldr
        max 0 = 3 ∧
    (2 : Nat) ≠ 3 := by
  decide

/-- C5 (amended): hop indices are stored verbatim as printed (each parsed hop
line contributes its own printed index, in order; an index overflowing `u32`
is stored as 0 by `unwrap_or(0)`), and `total_hops` is the hop index of the
*last* parsed hop line (0 when there is none) — which equals the maximum
exactly when the printed indices are non-decreasing. -/
theorem C5_hops_verbatim_total_last (lines : List String) (host : String) :
    (parse_tracert_output_lines lines host).hops.map HopResult.hop =
      lines.filterMap hopNumOf ∧
    (parse_tracert_output_lines lines host).total_hops =
      (lines.filterMap hopNumOf).getLastD 0 := by
  unfold parse_tracert_output_lines
  obtain ⟨h1, h2⟩ := traceFold_hops (findFirstSome destCaptures lines) lines (traceInit host)
  simp only [traceInit] at h1 h2
  by_cases hc : lines.any (fun l => containsSubAux "Trace complete".data l.data) <;>
    simp only [hc, if_true, if_false, Bool.false_eq_true, if_neg, ite_true, ite_false] <;>
      exact ⟨by simpa using h1, by simpa using h2⟩

/-! ### Helper lemmas: status WiFi pass -/

theorem statusFieldUpd_interface (st : NetworkStatus) (line : String) :
    (statusFieldUpd st line).interface = st.interface := by
  unfold statusFieldUpd
  split
  all_goals try rfl
  split_ifs <;> first
    | rfl
    | (split <;> first
        | rfl
        | (split <;> rfl))

/-- A trimmed line starting with "Name" starts with none of the field
prefixes of the extraction chain. -/
theorem name_no_field (s : String) (h : strStartsWith s "Name" = true) :
    strStartsWith s "State" = false ∧ strStartsWith s "SSID" = false ∧
    strStartsWith s "BSSID" = false ∧ strStartsWith s "Signal" = false ∧
    strStartsWith s "Channel" = false ∧ strStartsWith s "Receive rate" = false ∧
    strStartsWith s "Transmit rate" = false := by
  unfold strStartsWith at h ⊢
  cases hd : s.data with
  | nil => rw [hd] at h; simp [List.isPrefixOf] at h
  | cons c t =>
    rw [hd] at h
    have hc : c = 'N' := by
      simp [List.isPrefixOf] at h
      exact h.1.symm
    subst hc
    simp [List.isPrefixOf]

/-- Extraction does nothing on a "Name" header line. -/
theorem statusFieldUpd_name (st : NetworkStatus) (line : String)
    (h : strStartsWith line "Name" = true) : statusFieldUpd st line = st := by
  obtain ⟨h1, h2, h3, h4, h5, h6, h7⟩ := name_no_field line h
  unfold statusFieldUpd
  rcases extract_value line with _ | v
  · rfl
  · simp [h1, h2, h3, h4, h5, h6, h7]

/-- Before any interface has been selected, lines whose "Name" value does not
equal the filter (and all non-"Name" lines) leave the status untouched and the
search going; only the running `current_interface` may change. -/
theorem wifiLoop_skip_pre (f : String) (pre : List String)
    (hpre : ∀ l ∈ pre, strStartsWith (rustTrim l) "Name" = true →
        extract_value (rustTrim l) ≠ some f) :
    ∀ (rest : List String) (st : NetworkStatus) (cur : String),
      ∃ cur2, wifiStatusLoop (some f) (pre ++ rest) st cur false =
        wifiStatusLoop (some f) rest st cur2 false := by
  induction pre with
  | nil => intro rest st cur; exact ⟨cur, rfl⟩
  | cons l t ih =>
    intro rest st cur
    have hl := hpre l (List.mem_cons_self l t)
    have ht : ∀ x ∈ t, strStartsWith (rustTrim x) "Name" = true →
        extract_value (rustTrim x) ≠ some f :=
      fun x hx => hpre x (List.mem_cons_of_mem l hx)
    rw [List.cons_append]
    cases hname : strStartsWith (rustTrim l) "Name"
    · simpa [wifiStatusLoop, hname] using ih ht (rest) st cur
    · rcases hev : extract_value (rustTrim l) with _ | v
      · simpa [wifiStatusLoop, hname, hev] using ih ht rest st cur
      · have hvf : ¬(f = v) := fun he => (hl hname) (by rw [hev, he])
        simpa [wifiStatusLoop, hname, hev, hvf] using ih ht rest st v

/-- A "Name" line whose value equals the filter selects the interface: the
loop continues with `found = true`, the interface recorded, and the connection
type set. -/
theorem wifiLoop_name_match (f : String) (nameF : String) (ls : List String)
    (st : NetworkStatus) (cur : String) (found : Bool)
    (hnf1 : strStartsWith (rustTrim nameF) "Name" = true)
    (hnf2 : extract_value (rustTrim nameF) = some f) :
    wifiStatusLoop (some f) (nameF :: ls) st cur found =
      wifiStatusLoop (some f) ls
        { st with interface := some f, connection_type := some "wifi" } f true := by
  have hupd := statusFieldUpd_name
    { st with interface := some f, connection_type := some "wifi" } (rustTrim nameF) hnf1
  simp [wifiStatusLoop, hnf1, hnf2, hupd]

/-- After the filtered interface has been selected, a differing nonempty
"Name" header ends processing: lines beyond it never affect the result. -/
theorem wifiLoop_body_then_break (f g : String) (lg : String) (rest : List String)
    (hg1 : strStartsWith (rustTrim lg) "Name" = true)
    (hg2 : extract_value (rustTrim lg) = some g) (hgf : g ≠ f) (hge : g ≠ "") :
    ∀ (body : List String) (st : NetworkStatus),
      (∀ l ∈ body, strStartsWith (rustTrim l) "Name" = false) →
      st.interface = some f →
      wifiStatusLoop (some f) (body ++ lg :: rest) st f true =
        wifiStatusLoop (some f) body st f true := by
  intro body
  induction body with
  | nil =>
    intro st _ hint
    have hfg : ¬(f = g) := fun he => hgf he.symm
    have hupd := statusFieldUpd_name st (rustTrim lg) hg1
    simp [wifiStatusLoop, hg1, hg2, hfg, hge, hupd, hint, hgf]
  | cons b t ih =>
    intro st hb hint
    have hbn : strStartsWith (rustTrim b) "Name" = false := hb b (List.mem_cons_self b t)
    have hrec := ih (statusFieldUpd st (rustTrim b))
      (fun l hl => hb l (List.mem_cons_of_mem b hl))
      (by rw [statusFieldUpd_interface]; exact hint)
    simpa [wifiStatusLoop, hbn] using hrec

/-! ### Claims: status aggregator WiFi pass -/

/-- C3 counterexample: with no filter given, every "Name" header re-selects
its interface, so fields from a *later* interface section overwrite the first
section's fields — the result carries the second interface's name and SSID,
contradicting "the first interface listed is selected and extraction stops at
the next differing header". -/
theorem C3_unfiltered_leaks_later_sections :
    (get_wifi_status_lines none ["Name : A", "SSID : X", "Name : B", "SSID : Y"]).interface =
      some "B" ∧
    (get_wifi_status_lines none ["Name : A", "SSID : X", "Name : B", "SSID : Y"]).ssid =
      some "Y" ∧
    (some "B" : Option String) ≠ some "A" ∧ (some "Y" : Option String) ≠ some "X" := by
  decide

/-- C3 (amended): when an interface filter is given, the selected interface is
the first whose "Name" value equals the filter exactly, and extraction stops
at the next "Name" header carrying a differing nonempty value — lines beyond
that header never influence the result.  (With no filter, every "Name" header
re-selects, so later sections are processed too and may overwrite fields.) -/
theorem C3_filtered_stops_at_next_header (f g : String)
    (pre body rest : List String) (nameF lg : String)
    (hpre : ∀ l ∈ pre, strStartsWith (rustTrim l) "Name" = true →
        extract_value (rustTrim l) ≠ some f)
    (hbody : ∀ l ∈ body, strStartsWith (rustTrim l) "Name" = false)
    (hnf1 : strStartsWith (rustTrim nameF) "Name" = true)
    (hnf2 : extract_value (rustTrim nameF) = some f)
    (hg1 : strStartsWith (rustTrim lg) "Name" = true)
    (hg2 : extract_value (rustTrim lg) = some g)
    (hgf : g ≠ f) (hge : g ≠ "") :
    get_wifi_status_lines (some f) (pre ++ nameF :: (body ++ lg :: rest)) =
      get_wifi_status_lines (some f) (nameF :: body) := by
  unfold get_wifi_status_lines
  obtain ⟨cur2, hskip⟩ :=
    wifiLoop_skip_pre f pre hpre (nameF :: (body ++ lg :: rest)) emptyStatus ""
  rw [hskip, wifiLoop_name_match f nameF _ emptyStatus cur2 false hnf1 hnf2,
    wifiLoop_name_match f nameF _ emptyStatus "" false hnf1 hnf2]
  exact wifiLoop_body_then_break f g lg rest hg1 hg2 hgf hge body
    { emptyStatus with interface := some f, connection_type := some "wifi" } hbody rfl

theorem C3_filtered_stops_at_next_header_witness :
    get_wifi_status_lines (some "Wi-Fi")
        (["Name : Ethernet"] ++ "Name : Wi-Fi" :: (["SSID : Home"] ++
          "Name : Eth2" :: ["SSID : Evil"])) =
      get_wifi_status_lines (some "Wi-Fi") ("Name : Wi-Fi" :: ["SSID : Home"]) :=
  C3_filtered_stops_at_next_header "Wi-Fi" "Eth2" ["Name : Ethernet"] ["SSID : Home"]
    ["SSID : Evil"] "Name : Wi-Fi" "Name : Eth2"
    (by
      intro l hl _
      have hl' : l = "Name : Ethernet" := by simpa using hl
      subst hl'
      decide)
    (by decide) (by decide) (by decide) (by decide) (by decide) (by decide) (by decide)

end Nactl
